import Mathlib

/-!
Verification development for the event-rental assistant repository
(`src/app`).  The Python source is shallowly embedded: pure functions
become Lean functions, Python floats are modelled as rationals, fallible
code returns `Option`/`Except`, and external collaborators (the LLM
reasoning oracle, the slot extractor, e-mail delivery, the wall clock)
are abstracted as explicit parameters.
-/

deriving instance DecidableEq for Except

namespace Chatty

/-! ### Kernel-computable string helpers

Python string methods are modelled by `List Char` computations on
`String.data` (the byte-position based core `String` functions are
extensionally equal but are avoided so that concrete witnesses evaluate
inside the kernel). -/

/-- Python `s.lower()`. -/
def strLower (s : String) : String := ⟨s.data.map Char.toLower⟩

/-- Python `s.startswith(p)`. -/
def strStartsWith (s p : String) : Bool := p.data.isPrefixOf s.data

/-- Python `s[:n]`. -/
def strTake (s : String) (n : Nat) : String := ⟨s.data.take n⟩

/-- Python `s[n:]`. -/
def strDrop (s : String) (n : Nat) : String := ⟨s.data.drop n⟩

/-- Python `s.strip()`: whitespace removed from both ends. -/
def strTrim (s : String) : String :=
  ⟨((s.data.dropWhile Char.isWhitespace).reverse.dropWhile Char.isWhitespace).reverse⟩

/-- Python `s.replace(c, "")` for a single-character pattern. -/
def strRemoveChar (s : String) (c : Char) : String := ⟨s.data.filter (· != c)⟩

/-- Catalog item ids; uuid strings in the source (`src/app/pricing.py`). -/
abbrev ItemId := String

/-- `CatalogItem` from `src/app/pricing.py`: name, daily price, on-hand
quantity.  Monetary values (Python floats) are modelled as rationals. -/
structure CatalogItem where
  id : ItemId
  name : String
  price : ℚ
  qty : Int
  deriving Repr, DecidableEq

/-- One entry of `cfg["pricing"]["delivery"]["bands"]`. -/
structure DeliveryBand where
  pfx : String
  fee : ℚ
  deriving Repr, DecidableEq

/-- The configuration values the pricing engine reads from its YAML
settings (`self.cfg` in `src/app/pricing.py`), with the `.get` defaults
already resolved into concrete field values. -/
structure Config where
  serviceArea : List String
  warehouseZip : String
  weekendMultiplier : ℚ
  minOrderSubtotal : ℚ
  weekdayPct : ℚ
  setupMinutesPerItem : Int
  staffHourly : ℚ
  deliveryBands : List DeliveryBand
  deliveryBaseFee : ℚ
  deliveryPerMile : ℚ
  taxRate : ℚ
  deriving Repr, DecidableEq

/-- A reservation block from `cfg["inventory"]["blocks"]`. -/
structure Block where
  id : ItemId
  date : String
  qty : Int
  deriving Repr, DecidableEq

/-- A `PricingEngine` instance: configuration, insertion-ordered catalog
(a Python dict, modelled as a list with unique ids), reservation blocks. -/
structure Engine where
  cfg : Config
  catalog : List CatalogItem
  blocks : List Block
  deriving Repr, DecidableEq

/-- `PricingEngine.service_in_area`: the zip matches some configured
service-area entry with `*` characters removed. -/
def serviceInArea (cfg : Config) (zipCode : String) : Bool :=
  cfg.serviceArea.any (fun p => strStartsWith zipCode (strRemoveChar p '*'))

/-- Value of a list of ASCII digit characters. -/
def digitsToNat (ds : List Char) : Nat :=
  ds.foldl (fun acc c => 10 * acc + (c.toNat - 48)) 0

/-- Model of Python `int(s)` on a string: optional surrounding whitespace,
optional sign, then one or more ASCII digits; `none` where Python raises
`ValueError`.  (Python additionally accepts underscore digit separators
and non-ASCII digits; such inputs never arise in this repository.) -/
def pyInt (s : String) : Option Int :=
  match (strTrim s).data with
  | [] => none
  | c :: rest =>
    let sgn : Int := if c = '-' then -1 else 1
    let ds := if c = '-' ∨ c = '+' then rest else c :: rest
    if ds.isEmpty then none
    else if ds.all (·.isDigit) then some (sgn * (digitsToNat ds : Int)) else none

/-- `PricingEngine.estimate_miles`.  Returns `none` exactly where the
Python raises an uncaught `ValueError` from `int(...)` on a 3-character
prefix that is not an integer literal. -/
def estimateMiles (cfg : Config) (customerZip : String) : Option ℚ :=
  let a := strTake customerZip 3
  let b := strTake cfg.warehouseZip 3
  if a = b then some 5
  else
    match pyInt a, pyInt b with
    | some ia, some ib => some (if (ia - ib).natAbs ≤ 1 then 10 else 20)
    | _, _ => none

/-- Python `round(x, 2)` with floats modelled as rationals; the float
round-half-to-even tie rule is abstracted to `round` (the claims never
depend on tie behaviour). -/
def round2 (x : ℚ) : ℚ := (round (x * 100) : ℤ) / 100

/-- Gregorian leap year. -/
def isLeapYear (y : Int) : Bool := y % 4 == 0 && (y % 100 != 0 || y % 400 == 0)

/-- Days in a month of the proleptic Gregorian calendar. -/
def daysInMonth (y m : Int) : Int :=
  if m = 2 then (if isLeapYear y then 29 else 28)
  else if m = 4 ∨ m = 6 ∨ m = 9 ∨ m = 11 then 30
  else 31

/-- Days since 1970-01-01 of a civil date (standard civil-calendar
conversion; models CPython's `datetime.date` ordinal arithmetic). -/
def daysFromCivil (y m d : Int) : Int :=
  let y' := if m ≤ 2 then y - 1 else y
  let era := (if 0 ≤ y' then y' else y' - 399) / 400
  let yoe := y' - era * 400
  let mp := (m + 9) % 12
  let doy := (153 * mp + 2) / 5 + d - 1
  let doe := yoe * 365 + yoe / 4 - yoe / 100 + doy
  era * 146097 + doe - 719468

/-- Civil date of a number of days since 1970-01-01 (inverse of
`daysFromCivil`). -/
def civilFromDays (z : Int) : Int × Int × Int :=
  let z' := z + 719468
  let era := (if 0 ≤ z' then z' else z' - 146096) / 146097
  let doe := z' - era * 146097
  let yoe := (doe - doe / 1460 + doe / 36524 - doe / 146096) / 365
  let y := yoe + era * 400
  let doy := doe - (365 * yoe + yoe / 4 - yoe / 100)
  let mp := (5 * doy + 2) / 153
  let d := doy - (153 * mp + 2) / 5 + 1
  let m := mp + (if mp < 10 then 3 else -9)
  (y + (if m ≤ 2 then 1 else 0), m, d)

/-- Integer value of an ASCII digit character. -/
def digitVal (c : Char) : Int := (c.toNat : Int) - 48

/-- Model of `datetime.fromisoformat` restricted to the canonical
`YYYY-MM-DD` calendar-date form, the only form this repository produces
or stores; `none` where Python raises `ValueError`. -/
def parseIsoDate (s : String) : Option (Int × Int × Int) :=
  match s.data with
  | [y1, y2, y3, y4, h1, m1, m2, h2, d1, d2] =>
    if [y1, y2, y3, y4, m1, m2, d1, d2].all (·.isDigit) && h1 == '-' && h2 == '-' then
      let y := 1000 * digitVal y1 + 100 * digitVal y2 + 10 * digitVal y3 + digitVal y4
      let m := 10 * digitVal m1 + digitVal m2
      let d := 10 * digitVal d1 + digitVal d2
      if 1 ≤ y ∧ 1 ≤ m ∧ m ≤ 12 ∧ 1 ≤ d ∧ d ≤ daysInMonth y m then some (y, m, d)
      else none
    else none
  | _ => none

/-- Python `date.weekday()` (Monday = 0) of a civil date; day 0 of the
epoch (1970-01-01) was a Thursday. -/
def weekdayOfDate : Int × Int × Int → Int
  | (y, m, d) => (daysFromCivil y m d + 3) % 7

/-- Failure modes of the pricing engine observable to its callers.
`outOfServiceArea` is the explicit `ValueError("Address outside service
area")`; `unknownItem` a `KeyError` on catalog lookup; `valueError` an
uncaught `ValueError` (unparseable date, or `int()` failure inside
`estimate_miles`). -/
inductive PErr where
  | outOfServiceArea
  | unknownItem
  | valueError
  deriving Repr, DecidableEq

/-- Lookup in the catalog dict (`self.catalog[iid]`, first — and only,
ids being unique — match). -/
def findItem (catalog : List CatalogItem) (iid : ItemId) : Option CatalogItem :=
  catalog.find? (fun c => c.id == iid)

/-- The `reserved` dict of `check_availability`, built by folding over
the blocks exactly as the source loop does. -/
def reservedMap (blocks : List Block) (date : String) : ItemId → Int :=
  blocks.foldl
    (fun m b =>
      if b.date = date then (fun x => if x = b.id then m b.id + b.qty else m x) else m)
    (fun _ => 0)

/-- A shortage record `{"id": iid, "requested": qty, "available": have}`. -/
structure Shortage where
  id : ItemId
  requested : Int
  available : Int
  deriving Repr, DecidableEq

/-- The per-item loop of `check_availability`: unknown ids raise
(`KeyError` → `unknownItem`), shortages are appended in request order. -/
def shortagesLoop (catalog : List CatalogItem) (reserved : ItemId → Int) :
    List (ItemId × Int) → Except PErr (List Shortage)
  | [] => .ok []
  | (iid, qty) :: rest =>
    match findItem catalog iid with
    | none => .error .unknownItem
    | some item =>
      let avail := item.qty - reserved iid
      match shortagesLoop catalog reserved rest with
      | .error err => .error err
      | .ok tail => .ok (if avail < qty then ⟨iid, qty, avail⟩ :: tail else tail)

/-- `PricingEngine.check_availability` (`src/app/pricing.py`). -/
def checkAvailability (e : Engine) (date : String) (req : List (ItemId × Int)) :
    Except PErr (List Shortage) :=
  shortagesLoop e.catalog (reservedMap e.blocks date) req

/-- One entry of the `items_detail` list built by `price`. -/
structure LineDetail where
  id : ItemId
  name : String
  qty : Int
  unit : ℚ
  line : ℚ
  deriving Repr, DecidableEq

/-- The catalog lookups of the pricing loop: resolves every requested
line to its catalog item, failing with `KeyError` → `unknownItem` at the
first id not in the catalog. -/
def resolveLines (catalog : List CatalogItem) :
    List (ItemId × Int) → Except PErr (List (CatalogItem × Int))
  | [] => .ok []
  | (iid, qty) :: rest =>
    match findItem catalog iid with
    | none => .error .unknownItem
    | some item =>
      match resolveLines catalog rest with
      | .error err => .error err
      | .ok tail => .ok ((item, qty) :: tail)

/-- The priced-quote record returned by `price`. -/
structure Quote where
  lineItems : List LineDetail
  subtotal : ℚ
  deliveryFee : ℚ
  laborFee : ℚ
  discounts : ℚ
  tax : ℚ
  total : ℚ
  deriving Repr, DecidableEq

/-- The delivery-fee section of `price`: the fee of the first matching
flat-fee band, otherwise `base_fee + per_mile * estimate_miles(zip)`
rounded; `none` where `estimate_miles` raises. -/
def deliveryFee? (cfg : Config) (zipCode : String) : Option ℚ :=
  match (cfg.deliveryBands.find? (fun b => strStartsWith zipCode b.pfx)).map (·.fee) with
  | some f => some f
  | none =>
    (estimateMiles cfg zipCode).map
      (fun miles => round2 (cfg.deliveryBaseFee + cfg.deliveryPerMile * miles))

/-- `PricingEngine.price` (`src/app/pricing.py`), step for step:
service-area gate, line accumulation, weekend multiplier, weekday
discount, labor fee, delivery fee (flat band first, otherwise mileage
heuristic), tax and total. -/
def price (e : Engine) (date : String) (zipCode : String) (req : List (ItemId × Int)) :
    Except PErr Quote :=
  if !serviceInArea e.cfg zipCode then .error .outOfServiceArea
  else
    match resolveLines e.catalog req with
    | .error err => .error err
    | .ok lines =>
      let detail := lines.map (fun (item, qty) =>
        ({ id := item.id, name := item.name, qty := qty, unit := item.price,
           line := round2 (item.price * (qty : ℚ)) } : LineDetail))
      let sub0 : ℚ := (lines.map (fun (item, qty) => item.price * (qty : ℚ))).sum
      match parseIsoDate date with
      | none => .error .valueError
      | some ymd =>
        let wd := weekdayOfDate ymd
        let subtotal := if 5 ≤ wd then sub0 * e.cfg.weekendMultiplier else sub0
        let discounts :=
          if e.cfg.minOrderSubtotal ≤ subtotal ∧ wd ≤ 3
          then round2 (subtotal * e.cfg.weekdayPct) else 0
        let setupMinutes := e.cfg.setupMinutesPerItem * (req.map Prod.snd).sum
        let laborFee := round2 ((setupMinutes : ℚ) / 60 * e.cfg.staffHourly)
        match deliveryFee? e.cfg zipCode with
        | none => .error .valueError
        | some deliveryFee =>
          let taxable := max (subtotal - discounts) 0 + laborFee
          let tax := round2 (taxable * e.cfg.taxRate)
          let total := round2 (taxable + deliveryFee + tax)
          .ok { lineItems := detail, subtotal := round2 subtotal, deliveryFee := deliveryFee,
                laborFee := laborFee, discounts := discounts, tax := tax, total := total }

/-! ## Item resolver and field normalizers (`src/app/main.py`) -/

/-- Python `\w` on the ASCII inputs of this repository. -/
def isWordChar (c : Char) : Bool := c.isAlphanum || c == '_'

/-- Python `s.split()`: maximal nonempty runs of non-whitespace. -/
def splitWs (cs : List Char) : List (List Char) :=
  (cs.foldr
    (fun c acc =>
      if c.isWhitespace then [] :: acc
      else
        match acc with
        | [] => [[c]]
        | t :: rest => (c :: t) :: rest)
    []).filter (fun t => !t.isEmpty)

/-- `_canon` from `src/app/main.py` (identical in
`src/app/utils/field_normalizations.py`): lowercase, replace punctuation
(non-word, non-space characters) by spaces, split on whitespace, strip a
trailing `s` from tokens longer than 3 characters. -/
def canon (s : String) : List String :=
  let cleaned := s.data.map (fun c =>
    let lc := c.toLower
    if isWordChar lc || lc.isWhitespace then lc else ' ')
  (splitWs cleaned).map (fun t =>
    if t.getLast? == some 's' && t.length > 3 then (⟨t.dropLast⟩ : String) else ⟨t⟩)

/-- The Python `set(_canon s)`: distinct canonical tokens. -/
def tokSet (s : String) : List String := (canon s).dedup

/-- `len(set(_canon q) & set(_canon c))`: number of distinct shared
canonical tokens. -/
def interScore (q c : String) : Nat :=
  ((tokSet q).filter (fun t => (tokSet c).contains t)).length

/-- One iteration of the fuzzy-match loop of `_normalize_items`: the best
(id, score) pair is replaced only on a strict improvement. -/
def fuzzyStep (nm : String) (acc : Option ItemId × Nat) (c : CatalogItem) :
    Option ItemId × Nat :=
  let score := interScore nm c.name
  if acc.2 < score then (some c.id, score) else acc

/-- The fuzzy-match loop of `_normalize_items`: best (id, score) over the
catalog in iteration order, so the first catalog entry achieving the
maximal score wins. -/
def fuzzyBest (catalog : List CatalogItem) (nm : String) : Option ItemId × Nat :=
  catalog.foldl (fuzzyStep nm) (none, 0)

/-- `name_to_id_exact`: a dict keyed on lowercased catalog names, so a
later catalog entry with the same lowercased name overwrites an earlier
one — hence the reverse search.  `nm` is already lowercased by callers. -/
def exactNameLookup (catalog : List CatalogItem) (nm : String) : Option ItemId :=
  (catalog.reverse.find? (fun c => strLower c.name == nm)).map (·.id)

/-- One entry of the permissive `items` list handed to
`_normalize_items`: a dict with these optional keys (absent key =
`none`). -/
structure ItemEntry where
  id : Option String := none
  name : Option String := none
  item : Option String := none
  qty : Option Int := none
  quantity : Option Int := none
  deriving Repr, DecidableEq

/-- Python `a or b` on optional strings: `None` and `""` are falsy. -/
def orStr (a b : Option String) : Option String :=
  match a with
  | some s => if s = "" then b else some s
  | none => b

/-- Python `a or b` on optional ints: `None` and `0` are falsy. -/
def pyOrInt : Option Int → Option Int → Option Int
  | some n, b => if n = 0 then b else some n
  | none, b => b

/-- `int(it.get("qty", it.get("quantity", 1)))`: key-presence based
defaulting (a stored `0` is kept, unlike the truthiness chains). -/
def entryQty (it : ItemEntry) : Int := it.qty.getD (it.quantity.getD 1)

/-- The name string of an entry: `(it.get("name") or it.get("item") or
"").strip()`. -/
def entryName (it : ItemEntry) : String := strTrim ((orStr it.name it.item).getD "")

/-- Rendering of an entry inside the `Unknown item in request: {it}`
failure detail; stands for Python's dict `repr`, which shows only the
entry itself. -/
def reprEntry (it : ItemEntry) : String :=
  let f : Option String → String := fun o => match o with
    | none => "None"
    | some s => s
  "[id=" ++ f it.id ++ ", name=" ++ f it.name ++ ", item=" ++ f it.item ++ "]"

/-- Failure of `_normalize_items`: the `HTTPException(400, ...)` raised
for an unresolvable entry, carrying its detail message. -/
inductive ResolveErr where
  | unknownItem (detail : String)
  deriving Repr, DecidableEq

/-- Whether the direct-id step of `_normalize_items` applies:
`it.get("id") and it["id"] in eng.catalog` (empty string is falsy). -/
def idStepTaken (catalog : List CatalogItem) (it : ItemEntry) : Bool :=
  match it.id with
  | some i => i != "" && (findItem catalog i).isSome
  | none => false

/-- Last two resolution steps for one entry (`src/app/main.py`): raw
string used as a catalog id, else `HTTPException(400, ...)`. -/
def resolveFallback (catalog : List CatalogItem) (it : ItemEntry) (nm : String) :
    Except ResolveErr (ItemId × Int) :=
  if nm ≠ "" ∧ (findItem catalog nm).isSome then .ok (nm, entryQty it)
  else .error (.unknownItem ("Unknown item in request: " ++ reprEntry it))

/-- Name-based resolution steps for one entry (`src/app/main.py`):
case-insensitive exact match, then fuzzy token-set match accepted at
score ≥ 2, then the fallback steps. -/
def resolveEntryName (catalog : List CatalogItem) (it : ItemEntry) :
    Except ResolveErr (ItemId × Int) :=
  let nm := entryName it
  if nm ≠ "" then
    match exactNameLookup catalog (strLower nm) with
    | some iid => .ok (iid, entryQty it)
    | none =>
      match fuzzyBest catalog nm with
      | (some bid, bestScore) =>
        if 2 ≤ bestScore then .ok (bid, entryQty it)
        else resolveFallback catalog it nm
      | (none, _) => resolveFallback catalog it nm
  else resolveFallback catalog it nm

/-- Resolution of one entry of the `items` list in `_normalize_items`
(`src/app/main.py`): direct id, else the name-based steps. -/
def resolveEntry (catalog : List CatalogItem) (it : ItemEntry) :
    Except ResolveErr (ItemId × Int) :=
  if idStepTaken catalog it then
    match it.id with
    | some i => .ok (i, entryQty it)
    | none => resolveEntryName catalog it
  else resolveEntryName catalog it

/-- The arguments dict a reasoning decision carries (`thought.args`);
absent key = `none`.  `deliveryDate` models the `delivery_date` key and
`locationPfx` the `location_prefix` key. -/
structure ToolArgs where
  date : Option String := none
  deliveryDate : Option String := none
  zip : Option String := none
  postal : Option String := none
  area : Option String := none
  location : Option String := none
  locationPfx : Option String := none
  items : Option (List ItemEntry) := none
  item : Option String := none
  quantity : Option Int := none
  qty : Option Int := none
  deriving Repr, DecidableEq

/-- `int(args.get("quantity") or args.get("qty") or 1)` — truthiness
chain, `0` is falsy. -/
def defaultQty (args : ToolArgs) : Int :=
  (pyOrInt args.quantity (pyOrInt args.qty (some 1))).getD 1

/-- The `items_in` selection of `_normalize_items` (`src/app/main.py`):
an `items` list if present, else a synthesized single entry when both an
`item` key and a `quantity`/`qty` key are present, else nothing. -/
def itemsIn (args : ToolArgs) : List ItemEntry :=
  match args.items with
  | some l => l
  | none =>
    if args.item.isSome ∧ (args.quantity.isSome ∨ args.qty.isSome) then
      [{ name := args.item, qty := some (defaultQty args) }]
    else []

/-- The entry loop of `_normalize_items`: resolve each entry in order,
propagating the first failure. -/
def resolveEntries (catalog : List CatalogItem) :
    List ItemEntry → Except ResolveErr (List (ItemId × Int))
  | [] => .ok []
  | it :: rest =>
    match resolveEntry catalog it with
    | .error err => .error err
    | .ok r =>
      match resolveEntries catalog rest with
      | .error err => .error err
      | .ok tail => .ok (r :: tail)

/-- `_normalize_items` (`src/app/main.py`), already mapped to the
`(id, qty)` pairs `_run_tool` builds from its result. -/
def normalizeItems (catalog : List CatalogItem) (args : ToolArgs) :
    Except ResolveErr (List (ItemId × Int)) :=
  resolveEntries catalog (itemsIn args)

/-- `_normalize_zip` (`src/app/main.py`): first truthy of
`zip`/`postal`/`area`/`location`/`location_prefix`, digits extracted and
truncated to 5, the raw string when it holds no digit. -/
def normalizeZip (args : ToolArgs) : Option String :=
  match orStr args.zip (orStr args.postal (orStr args.area
      (orStr args.location args.locationPfx))) with
  | none => none
  | some z =>
    let digits := z.data.filter (·.isDigit)
    if digits.isEmpty then some z else some (String.mk (digits.take 5))

/-- The `_WEEKDAYS` table (`src/app/main.py`). -/
def weekdayTable : List (String × Int) :=
  [("monday", 0), ("tuesday", 1), ("wednesday", 2), ("thursday", 3),
   ("friday", 4), ("saturday", 5), ("sunday", 6)]

/-- Weekday-name lookup in `_WEEKDAYS`. -/
def lookupWeekday (w : String) : Option Int :=
  (weekdayTable.find? (fun p => p.1 == w)).map (·.2)

/-- Python `date.weekday()` of a day count since 1970-01-01. -/
def dayWeekday (z : Nat) : Int := ((z : Int) + 3) % 7

/-- `_next_weekday_iso` (`src/app/main.py`) at the day-count level:
`days_ahead = (target - now.weekday() + 7) % 7`, bumped to a full 7 when
zero. -/
def nextWeekdayDays (todayDays : Nat) (target : Int) : Nat :=
  let ahead := (target - dayWeekday todayDays + 7) % 7
  let ahead := if ahead = 0 then 7 else ahead
  todayDays + ahead.toNat

/-- Zero-padded decimal rendering of a month/day. -/
def pad2 (n : Int) : String := (if n < 10 then "0" else "") ++ toString n

/-- Zero-padded decimal rendering of a year. -/
def pad4 (n : Int) : String :=
  (if n < 10 then "000" else if n < 100 then "00" else if n < 1000 then "0" else "") ++
    toString n

/-- `date.isoformat()` of a day count since 1970-01-01. -/
def isoOfDays (z : Nat) : String :=
  match civilFromDays z with
  | (y, m, d) => pad4 y ++ "-" ++ pad2 m ++ "-" ++ pad2 d

/-- `_normalize_date` (`src/app/main.py`).  `todayDays` abstracts
`datetime.now(ZoneInfo("America/Los_Angeles"))` as the day count since
1970-01-01 of today's date in that fixed zone (nonnegative for any real
clock).  The source's trailing `try: fromisoformat(s) ... return s
except: return s` returns `s` on both branches, so the parse attempt is
not modelled — every non-`next`-prefixed input falls through to the
lowercased, trimmed string. -/
def normalizeDate (todayDays : Nat) (ds : Option String) : Option String :=
  match ds with
  | none => none
  | some ds =>
    if ds = "" then none
    else
      let s := strTrim (strLower ds)
      if strStartsWith s "next " then
        match lookupWeekday (strDrop s 5) with
        | some t => some (isoOfDays (nextWeekdayDays todayDays t))
        | none => some s
      else some s

/-! ## Tool dispatcher and dialog follow-up (`src/app/main.py`) -/

/-- Errors `_run_tool` can raise: `HTTPException(400, detail)` or an
exception escaping the pricing engine. -/
inductive ToolErr where
  | httpErr (detail : String)
  | engineErr (e : PErr)
  deriving Repr, DecidableEq

/-- `str(e)` of a tool error, as stored into `{"error": str(e)}`. -/
def ToolErr.msg : ToolErr → String
  | .httpErr d => d
  | .engineErr .outOfServiceArea => "Address outside service area"
  | .engineErr .unknownItem => "KeyError"
  | .engineErr .valueError => "ValueError"

/-- Successful tool results.  `leadCreated`/`orderBooked` abstract the
repository side effects (fresh uuids) of `create_lead`/`book`. -/
inductive ToolResult where
  | availability (available : Bool) (shortages : List Shortage)
  | quoteRes (q : Quote) (note : Bool)
  | leadCreated
  | orderBooked
  deriving Repr, DecidableEq

/-- `None`/`""` are falsy (`if not date`, `if not (date and zip)`). -/
def truthyStr : Option String → Option String
  | none => none
  | some s => if s = "" then none else some s

/-- `_run_tool` (`src/app/main.py`) for a non-null tool name. -/
def runTool (e : Engine) (todayDays : Nat) (tool : String) (args : ToolArgs) :
    Except ToolErr ToolResult :=
  let tool := strTrim tool
  if tool = "check_availability" then
    match truthyStr (normalizeDate todayDays (orStr args.date args.deliveryDate)) with
    | none => .error (.httpErr "check_availability requires date")
    | some date =>
      match normalizeItems e.catalog args with
      | .error (.unknownItem d) => .error (.httpErr d)
      | .ok req =>
        match checkAvailability e date req with
        | .error pe => .error (.engineErr pe)
        | .ok shortages => .ok (.availability shortages.isEmpty shortages)
  else if tool = "quote" then
    match truthyStr (normalizeDate todayDays (orStr args.date args.deliveryDate)),
        truthyStr (normalizeZip args) with
    | some date, some zipCode =>
      match normalizeItems e.catalog args with
      | .error (.unknownItem d) => .error (.httpErr d)
      | .ok req =>
        match checkAvailability e date req with
        | .error pe => .error (.engineErr pe)
        | .ok shortages =>
          match price e date zipCode req with
          | .error pe => .error (.engineErr pe)
          | .ok q => .ok (.quoteRes q (!shortages.isEmpty))
    | _, _ => .error (.httpErr "quote requires date and a ZIP")
  else if tool = "create_lead" then .ok .leadCreated
  else if tool = "book" then .ok .orderBooked
  else .error (.httpErr ("Unknown tool " ++ tool))

/-- What the dialog handler stores into `tool_result`: the tool's dict on
success, `{"error": str(e)}` when the tool raised. -/
inductive ToolOutcome where
  | ok (r : ToolResult)
  | err (msg : String)
  deriving Repr, DecidableEq

/-- The `tool_result and tool_result.get("available")` guard of the
follow-up: both result dicts are nonempty (truthy), and only a
successful availability result carries an `available` key. -/
def availTrue : Option ToolOutcome → Bool
  | some (.ok (.availability b _)) => b
  | _ => false

/-- Steps 3–4 of the `/dialog` handler (`src/app/main.py`): tool
execution with all exceptions captured into the outcome, then the
`available → auto-quote` follow-up whose own failure is swallowed.
Returns `(tool_result, followup_quote)`. -/
def dialogToolPhase (e : Engine) (todayDays : Nat) (thoughtTool : Option String)
    (args : ToolArgs) : Option ToolOutcome × Option ToolResult :=
  let tool : Option String :=
    match thoughtTool with
    | none => none
    | some t => if t = "" ∨ strLower t = "null" then none else some t
  let toolResult : Option ToolOutcome :=
    match tool with
    | none => none
    | some t =>
      some (match runTool e todayDays t args with
        | .ok r => .ok r
        | .error err => .err err.msg)
  let followup : Option ToolResult :=
    if tool = some "check_availability" ∧ availTrue toolResult then
      match runTool e todayDays "quote" args with
      | .ok r => some r
      | .error _ => none
    else none
  (toolResult, followup)

/-! ## The utils-module variant of the item normalizer
(`src/app/utils/field_normalizations.py`) -/

/-- Per-entry resolution of the utils variant: lowercased name, exact
match, fuzzy match at score ≥ 2, otherwise `none` — the entry is
silently dropped, no failure is raised. -/
def utilsResolveEntry (catalog : List CatalogItem) (it : ItemEntry) :
    Option (ItemId × Int) :=
  let nm := strLower (strTrim (it.name.getD ""))
  let qty := it.qty.getD 1
  match exactNameLookup catalog nm with
  | some iid => some (iid, qty)
  | none =>
    match fuzzyBest catalog nm with
    | (some bid, s) => if 2 ≤ s then some (bid, qty) else none
    | (none, _) => none

/-- `_normalize_items` from `src/app/utils/field_normalizations.py`:
matched entries are collected in order, unmatched ones skipped. -/
def utilsNormalizeItems (catalog : List CatalogItem) (args : ToolArgs) :
    List (ItemId × Int) :=
  let itemsIn : List ItemEntry :=
    match args.items with
    | some l => l
    | none =>
      if args.item.isSome then [{ name := args.item, qty := some (defaultQty args) }]
      else []
  itemsIn.filterMap (utilsResolveEntry catalog)

/-! ## Session state and slot-filling workflow
(`src/app/classes/session.py`, `src/app/tenant_workflow.py`) -/

/-- `SessionState`: slot values are modelled as strings, the only values
the workflow's extractor produces (`Any` in the source).  `slots` is the
dict as a lookup function. -/
structure SessionState where
  callId : String
  callerNumber : String := ""
  slots : String → Option String := fun _ => none
  messages : List (String × String) := []

/-- `SessionState.set_slot`: `None` and blank strings are silently
dropped, anything else is stored (insert or overwrite). -/
def setSlot (st : SessionState) (key : String) (value : Option String) : SessionState :=
  match value with
  | none => st
  | some v =>
    if strTrim v = "" then st
    else { st with slots := fun k => if k = key then some v else st.slots k }

/-- `SessionState.all_required_filled`: false as soon as a required key
is absent or holds a blank string. -/
def allRequiredFilled (st : SessionState) (required : List String) : Bool :=
  required.all (fun k =>
    match st.slots k with
    | none => false
    | some v => !(strTrim v == ""))

/-- The required slot names of `TenantWorkflow` in declaration order
(`notes` is optional). -/
def requiredSlots : List String := ["name", "phone", "date", "zip"]

/-- The prompt text of each slot declared in `TenantWorkflow.__init__`
(the `notes` prompt's curly apostrophe is spelled out). -/
def slotPrompt : String → String
  | "name" => "Who am I speaking with?"
  | "phone" => "Can I get your phone number please?"
  | "date" => "What date is your event?"
  | "zip" => "What is the zipcode of your event?"
  | "notes" => "Is there anything else you would like us to know?"
  | _ => ""

/-- Python truthiness of `session.slots.get(s)`: absent or `""` is
falsy. -/
def slotFilled (st : SessionState) (s : String) : Bool :=
  match st.slots s with
  | none => false
  | some v => !(v == "")

/-- `TenantWorkflow.next_unfilled_slot`: first required slot, in declared
order, whose value is falsy. -/
def nextUnfilledSlot (st : SessionState) : Option String :=
  requiredSlots.find? (fun s => !slotFilled st s)

/-- The outcome of one `handle_step` turn: updated session, spoken reply,
and whether `on_complete` (the notification hook) was invoked during the
turn. -/
structure StepResult where
  session : SessionState
  reply : String
  hookFired : Bool

/-- `TenantWorkflow.handle_step` (`src/app/tenant_workflow.py`).  The LLM
slot extractor (`extract_slot_from_text`) is abstracted as the `extract`
argument (slot name, utterance → optional value; `if value:` treats
`None` and `""` as falsy), and the `on_complete` e-mail side effect is
recorded as `hookFired`.  The reply strings are reproduced with the
source's curly apostrophes spelled out; no claim depends on them. -/
def handleStep (extract : String → String → Option String)
    (st : SessionState) (userText : String) : StepResult :=
  match nextUnfilledSlot st with
  | none =>
    { session := st,
      reply := "Thanks " ++ ((st.slots "name").getD "") ++ ", your details have been received.",
      hookFired := true }
  | some slot =>
    match extract slot userText with
    | some v =>
      if v = "" then { session := st, reply := slotPrompt slot, hookFired := false }
      else
        let st' := setSlot st slot (some v)
        match nextUnfilledSlot st' with
        | none =>
          { session := st',
            reply := "Thank you, " ++ ((st'.slots "name").getD "") ++
              "! We have collected everything we need.",
            hookFired := true }
        | some nxt => { session := st', reply := slotPrompt nxt, hookFired := false }
    | none => { session := st, reply := slotPrompt slot, hookFired := false }

/-! ### Spec-side comparison definitions

These follow the wording of the specification (not the
source's control flow) and are compared against the embedded code. -/

/-- The spec's reserved quantity: the sum of the quantities of all
reservation blocks for `iid` whose date equals `date` (blocks on the
same date/item are additive). -/
def blockSum (date : String) (iid : ItemId) : List Block → Int
  | [] => 0
  | b :: rest => (if b.date = date ∧ b.id = iid then b.qty else 0) + blockSum date iid rest

/-- The availability result as the spec states it: one shortage record
per requested line whose requested quantity exceeds on-hand minus the
same-date block sum. -/
def availabilitySpec (e : Engine) (date : String) (req : List (ItemId × Int)) :
    List Shortage :=
  req.filterMap (fun p =>
    match findItem e.catalog p.1 with
    | none => none
    | some item =>
      let avail := item.qty - blockSum date p.1 e.blocks
      if avail < p.2 then some ⟨p.1, p.2, avail⟩ else none)

/-- The spec's pre-multiplier subtotal: the sum over requested lines of
unit price times quantity (0 for an unknown id, a case excluded by
hypothesis wherever this definition is used). -/
def rawSubtotal (e : Engine) (req : List (ItemId × Int)) : ℚ :=
  (req.map (fun p =>
    (match findItem e.catalog p.1 with
     | some item => item.price
     | none => 0) * (p.2 : ℚ))).sum

/-- Substring containment, for inspecting failure-detail strings. -/
def strContainsSub (hay needle : String) : Bool :=
  hay.data.tails.any (fun t => needle.data.isPrefixOf t)

/-! ### Concrete example instances (used by the witness theorems) -/

/-- The catalog chair of the spec's fuzzy-resolution example. -/
def egResin : CatalogItem := ⟨"chair-id", "Resin Folding Chair (White)", 3/2, 200⟩

/-- A second catalog entry. -/
def egTable : CatalogItem := ⟨"table-id", "Table 60 Round", 8, 30⟩

/-- A two-item example catalog. -/
def egCatalog : List CatalogItem := [egResin, egTable]

/-- An example configuration: service area `9*`, warehouse 90001, weekend
multiplier 1.2, minimum order 100, weekday discount 10 %, 6 setup minutes
per item at 30/h, no flat-fee bands, delivery 20 + 2 per mile, 10 % tax. -/
def egCfg : Config := ⟨["9"], "90001", 6/5, 100, 1/10, 6, 30, [], 20, 2, 1/10⟩

/-- An example engine with two additive reservation blocks for the chair
on 2024-01-06. -/
def egEngine : Engine :=
  ⟨egCfg, egCatalog, [⟨"chair-id", "2024-01-06", 150⟩, ⟨"chair-id", "2024-01-06", 30⟩]⟩

/-- A configuration whose service area admits non-numeric postal codes. -/
def egCfgAlpha : Config := ⟨["A"], "90001", 6/5, 100, 1/10, 6, 30, [], 20, 2, 1/10⟩

/-- An engine for the non-numeric-postal-code scenario. -/
def egEngineAlpha : Engine := ⟨egCfgAlpha, egCatalog, []⟩

/-- A session with three of the four required slots filled. -/
def egSession3 : SessionState :=
  { callId := "call-1", callerNumber := "8185551234",
    slots := fun k => if k = "name" then some "Alice"
      else if k = "phone" then some "8185551234"
      else if k = "date" then some "2024-01-06" else none }

/-- An extractor oracle that answers every prompt with a fixed value. -/
def egExtract : String → String → Option String := fun slot _ => some ("v-" ++ slot)

/-- Arguments with a date and a resolvable item but no zip: the
availability check succeeds while a quote must fail. -/
def egArgsAvail : ToolArgs :=
  { date := some "2024-01-06", items := some [{ id := some "chair-id", qty := some 3 }] }

/-! ## Helper lemmas -/

/-- The `reserved` dict built by the fold equals the spec's per-item
block sum. -/
theorem reservedMap_eq_blockSum (blocks : List Block) (date : String) (iid : ItemId) :
    reservedMap blocks date iid = blockSum date iid blocks := by
  suffices h : ∀ (m : ItemId → Int),
      blocks.foldl
        (fun m b =>
          if b.date = date then (fun x => if x = b.id then m b.id + b.qty else m x) else m)
        m iid
        = m iid + blockSum date iid blocks by
    simpa [reservedMap] using h (fun _ => 0)
  induction blocks generalizing iid with
  | nil => intro m; simp [blockSum]
  | cons b bs ih =>
    intro m
    simp only [List.foldl_cons, blockSum]
    by_cases hd : b.date = date
    · rw [if_pos hd, ih]
      by_cases hi : b.id = iid
      · subst hi
        rw [if_pos rfl, if_pos ⟨hd, rfl⟩]
        omega
      · rw [if_neg (fun h => hi h.symm), if_neg (fun h => hi h.2)]
        omega
    · rw [if_neg hd, ih, if_neg (fun h => hd h.1)]
      omega

/-- When every requested id is in the catalog, the availability loop
returns exactly the spec's shortage list. -/
theorem shortagesLoop_ok (e : Engine) (date : String) (req : List (ItemId × Int))
    (hall : req.all (fun p => (findItem e.catalog p.1).isSome) = true) :
    shortagesLoop e.catalog (reservedMap e.blocks date) req = .ok (availabilitySpec e date req) := by
  induction req with
  | nil => simp [shortagesLoop, availabilitySpec]
  | cons p rest ih =>
    obtain ⟨iid, qty⟩ := p
    simp only [List.all_cons, Bool.and_eq_true] at hall
    obtain ⟨hp, hrest⟩ := hall
    rcases hfind : findItem e.catalog iid with _ | item
    · rw [hfind] at hp; simp at hp
    · simp only [shortagesLoop, hfind, ih hrest, availabilitySpec, List.filterMap_cons]
      rw [reservedMap_eq_blockSum]
      by_cases hlt : item.qty - blockSum date iid e.blocks < qty
      · simp [hlt, availabilitySpec]
      · simp [hlt, availabilitySpec]

/-- When some requested id is missing from the catalog, the availability
loop fails with `unknownItem`. -/
theorem shortagesLoop_err (e : Engine) (date : String) (req : List (ItemId × Int))
    (hall : req.all (fun p => (findItem e.catalog p.1).isSome) = false) :
    shortagesLoop e.catalog (reservedMap e.blocks date) req = .error .unknownItem := by
  induction req with
  | nil => simp at hall
  | cons p rest ih =>
    obtain ⟨iid, qty⟩ := p
    rcases hfind : findItem e.catalog iid with _ | item
    · simp [shortagesLoop, hfind]
    · have hrest : rest.all (fun p => (findItem e.catalog p.1).isSome) = false := by
        rw [List.all_cons] at hall
        simpa [hfind] using hall
      simp [shortagesLoop, hfind, ih hrest]

/-! ## Claim theorems -/

/-- C2: for every date, every postal code that matches no configured
service-area prefix, and every line-item list (item ids absent from the
catalog included), `price` fails with `OutOfServiceArea`; the rejection
precedes any catalog lookup, so no `UnknownItem` or other error preempts
it. -/
theorem price_rejects_out_of_service_area (e : Engine) (date zipCode : String)
    (req : List (ItemId × Int)) (h : serviceInArea e.cfg zipCode = false) :
    price e date zipCode req = .error .outOfServiceArea := by
  simp [price, h]

/-- Witness for `price_rejects_out_of_service_area`: 10001 is outside
the `9*` service area and the request contains an id that is not in the
catalog, yet the failure is `outOfServiceArea`, not `unknownItem`. -/
theorem price_rejects_out_of_service_area_witness :
    serviceInArea egCfg "10001" = false ∧
    findItem egCatalog "ghost-id" = none ∧
    price egEngine "2024-01-06" "10001" [("ghost-id", 1)] = .error .outOfServiceArea :=
  ⟨by decide, by decide,
    price_rejects_out_of_service_area egEngine "2024-01-06" "10001" [("ghost-id", 1)] (by decide)⟩

/-- C10: a postal code can pass the service-area check and match no
flat-fee delivery band while its first three characters are not all
decimal digits and differ from the warehouse prefix; `price` then fails
with the uncaught `int()` conversion error escaping `estimate_miles`
rather than any error of the specified taxonomy — the delivery-fee
branch of `price` is not total over in-service-area postal codes. -/
theorem price_delivery_fee_not_total :
    ∃ (e : Engine) (date zipCode : String),
      serviceInArea e.cfg zipCode = true ∧
      e.cfg.deliveryBands.find? (fun b => strStartsWith zipCode b.pfx) = none ∧
      (strTake zipCode 3).data.all (·.isDigit) = false ∧
      strTake zipCode 3 ≠ strTake e.cfg.warehouseZip 3 ∧
      estimateMiles e.cfg zipCode = none ∧
      price e date zipCode [] = .error .valueError :=
  ⟨egEngineAlpha, "2024-01-01", "AB123",
    by decide, by decide, by decide, by decide, by decide, by decide⟩

/-- C3: with every requested id in the catalog, `check_availability`
returns exactly one shortage record per requested line whose quantity
exceeds on-hand minus the additive same-date block sum; with any
requested id missing, it fails with `UnknownItem` instead of silently
skipping. -/
theorem check_availability_correct (e : Engine) (date : String)
    (req : List (ItemId × Int)) :
    (req.all (fun p => (findItem e.catalog p.1).isSome) = true →
      checkAvailability e date req = .ok (availabilitySpec e date req)) ∧
    (req.all (fun p => (findItem e.catalog p.1).isSome) = false →
      checkAvailability e date req = .error .unknownItem) :=
  ⟨shortagesLoop_ok e date req, shortagesLoop_err e date req⟩

/-- Witness for `check_availability_correct`: the two blocks of
2024-01-06 add up to 180 reserved chairs, so 20 remain; the lines of 50
and 21 are short, the table line is not; a request naming `ghost-id`
fails with `unknownItem`. -/
theorem check_availability_correct_witness :
    checkAvailability egEngine "2024-01-06" [("chair-id", 50), ("table-id", 10), ("chair-id", 21)] =
      .ok [⟨"chair-id", 50, 20⟩, ⟨"chair-id", 21, 20⟩] ∧
    checkAvailability egEngine "2024-01-06" [("chair-id", 1), ("ghost-id", 1)] =
      .error .unknownItem := by
  constructor
  · exact ((check_availability_correct egEngine "2024-01-06"
      [("chair-id", 50), ("table-id", 10), ("chair-id", 21)]).1 (by decide)).trans (by decide)
  · exact (check_availability_correct egEngine "2024-01-06"
      [("chair-id", 1), ("ghost-id", 1)]).2 (by decide)

end Chatty

namespace Chatty

/-- When every requested id resolves, the pricing loop succeeds and its
accumulated unrounded subtotal is the spec's per-line sum. -/
theorem resolveLines_ok (e : Engine) (req : List (ItemId × Int))
    (hall : req.all (fun p => (findItem e.catalog p.1).isSome) = true) :
    ∃ lines, resolveLines e.catalog req = .ok lines ∧
      (lines.map (fun (item, qty) => item.price * (qty : ℚ))).sum = rawSubtotal e req := by
  induction req with
  | nil => exact ⟨[], rfl, by simp [rawSubtotal]⟩
  | cons p rest ih =>
    obtain ⟨iid, qty⟩ := p
    simp only [List.all_cons, Bool.and_eq_true] at hall
    obtain ⟨hp, hrest⟩ := hall
    rcases hfind : findItem e.catalog iid with _ | item
    · rw [hfind] at hp; simp at hp
    · obtain ⟨lines, hlines, hsum⟩ := ih hrest
      refine ⟨(item, qty) :: lines, ?_, ?_⟩
      · simp only [resolveLines, hfind, hlines]
      · simp only [List.map_cons, List.sum_cons, hsum, rawSubtotal, hfind]

/-- C1: for a successfully priced in-service-area request, the subtotal
is the per-line sum of unit price times quantity, multiplied by the
weekend multiplier when the weekday index is ≥ 5; the weekday discount,
computed on the post-multiplier subtotal and rounded to 2 decimals, is
applied iff that post-multiplier subtotal reaches the minimum-order
threshold and the weekday index is ≤ 3, and is 0 otherwise. -/
theorem price_subtotal_discount (e : Engine) (date zipCode : String)
    (req : List (ItemId × Int)) (ymd : Int × Int × Int)
    (hin : serviceInArea e.cfg zipCode = true)
    (hids : req.all (fun p => (findItem e.catalog p.1).isSome) = true)
    (hdate : parseIsoDate date = some ymd)
    (hdeliv : (deliveryFee? e.cfg zipCode).isSome = true) :
    ∃ q s, price e date zipCode req = .ok q ∧
      s = (if 5 ≤ weekdayOfDate ymd
        then rawSubtotal e req * e.cfg.weekendMultiplier else rawSubtotal e req) ∧
      q.subtotal = round2 s ∧
      q.discounts = (if e.cfg.minOrderSubtotal ≤ s ∧ weekdayOfDate ymd ≤ 3
        then round2 (s * e.cfg.weekdayPct) else 0) := by
  obtain ⟨lines, hlines, hsum⟩ := resolveLines_ok e req hids
  obtain ⟨f, hf⟩ := Option.isSome_iff_exists.mp hdeliv
  simp only [price, hin, hlines, hdate, hf, Bool.not_true, Bool.false_eq_true, if_false, hsum]
  refine ⟨_, _, rfl, rfl, ?_, ?_⟩
  · simp
  · simp

/-- Witness for `price_subtotal_discount`: a Saturday order inside the
service area with a known item and a computable delivery fee. -/
theorem price_subtotal_discount_witness :
    ∃ q s, price egEngine "2024-01-06" "90210" [("chair-id", 50)] = .ok q ∧
      s = (if 5 ≤ weekdayOfDate (2024, 1, 6)
        then rawSubtotal egEngine [("chair-id", 50)] * egEngine.cfg.weekendMultiplier
        else rawSubtotal egEngine [("chair-id", 50)]) ∧
      q.subtotal = round2 s ∧
      q.discounts = (if egEngine.cfg.minOrderSubtotal ≤ s ∧ weekdayOfDate (2024, 1, 6) ≤ 3
        then round2 (s * egEngine.cfg.weekdayPct) else 0) :=
  price_subtotal_discount egEngine "2024-01-06" "90210" [("chair-id", 50)] (2024, 1, 6)
    (by decide) (by decide) (by decide) (by decide)

/-- The best score of the fuzzy fold never decreases. -/
theorem fuzzyFold_snd_le (nm : String) (l : List CatalogItem) :
    ∀ acc : Option ItemId × Nat, acc.2 ≤ (l.foldl (fuzzyStep nm) acc).2 := by
  induction l with
  | nil => intro acc; simp
  | cons c cs ih =>
    intro acc
    simp only [List.foldl_cons]
    refine le_trans ?_ (ih (fuzzyStep nm acc c))
    unfold fuzzyStep
    dsimp only
    split
    · exact le_of_lt ‹_›
    · exact le_refl _

/-- The fuzzy fold's final score bounds the score of every element. -/
theorem fuzzyFold_max (nm : String) (l : List CatalogItem) :
    ∀ (acc : Option ItemId × Nat) (c : CatalogItem), c ∈ l →
      interScore nm c.name ≤ (l.foldl (fuzzyStep nm) acc).2 := by
  induction l with
  | nil => intro acc c hc; cases hc
  | cons c0 cs ih =>
    intro acc c hc
    simp only [List.foldl_cons]
    rcases List.mem_cons.mp hc with rfl | hc
    · refine le_trans ?_ (fuzzyFold_snd_le nm cs (fuzzyStep nm acc c))
      unfold fuzzyStep
      dsimp only
      split
      · exact le_refl _
      · exact le_of_not_lt ‹_›
    · exact ih (fuzzyStep nm acc c0) c hc

/-- The fuzzy fold either keeps its accumulator or returns the first
element attaining the final (strictly improved) score. -/
theorem fuzzyFold_first (nm : String) (l : List CatalogItem) :
    ∀ acc : Option ItemId × Nat,
      l.foldl (fuzzyStep nm) acc = acc ∨
      ∃ pre c post, l = pre ++ c :: post ∧
        l.foldl (fuzzyStep nm) acc = (some c.id, interScore nm c.name) ∧
        acc.2 < interScore nm c.name ∧
        ∀ p ∈ pre, interScore nm p.name < interScore nm c.name := by
  induction l with
  | nil => intro acc; left; rfl
  | cons c0 cs ih =>
    intro acc
    simp only [List.foldl_cons]
    by_cases h0 : acc.2 < interScore nm c0.name
    · have hstep : fuzzyStep nm acc c0 = (some c0.id, interScore nm c0.name) := by
        unfold fuzzyStep; simp [h0]
      rw [hstep]
      rcases ih (some c0.id, interScore nm c0.name) with heq | ⟨pre, c, post, hsplit, heq, hlt, hpre⟩
      · right; exact ⟨[], c0, cs, rfl, heq, h0, by simp⟩
      · right
        refine ⟨c0 :: pre, c, post, by simp [hsplit], heq, lt_trans h0 hlt, ?_⟩
        intro p hp
        rcases List.mem_cons.mp hp with rfl | hp
        · exact hlt
        · exact hpre p hp
    · have hstep : fuzzyStep nm acc c0 = acc := by
        unfold fuzzyStep; simp [h0]
      rw [hstep]
      rcases ih acc with heq | ⟨pre, c, post, hsplit, heq, hlt, hpre⟩
      · left; exact heq
      · right
        refine ⟨c0 :: pre, c, post, by simp [hsplit], heq, hlt, ?_⟩
        intro p hp
        rcases List.mem_cons.mp hp with rfl | hp
        · exact lt_of_le_of_lt (le_of_not_lt h0) hlt
        · exact hpre p hp

/-- A successful fuzzy best is attained by the first catalog entry with
the maximal score: every earlier entry scores strictly less. -/
theorem fuzzyBest_first_seen (catalog : List CatalogItem) (nm : String)
    (bid : ItemId) (s : Nat) (h : fuzzyBest catalog nm = (some bid, s)) :
    ∃ pre c post, catalog = pre ++ c :: post ∧ c.id = bid ∧
      interScore nm c.name = s ∧ ∀ p ∈ pre, interScore nm p.name < s := by
  rcases fuzzyFold_first nm catalog (none, 0) with heq | ⟨pre, c, post, hsplit, heq, _, hpre⟩
  · rw [fuzzyBest, heq] at h; cases h
  · rw [fuzzyBest, heq] at h
    obtain ⟨hid, hs⟩ : some c.id = some bid ∧ interScore nm c.name = s := by
      constructor <;> [exact congrArg Prod.fst h; exact congrArg Prod.snd h]
    refine ⟨pre, c, post, hsplit, Option.some.inj hid, hs, ?_⟩
    intro p hp
    rw [← hs]
    exact hpre p hp

/-- When the direct-id step does not apply, resolution proceeds by
name. -/
theorem resolveEntry_of_id_fails (catalog : List CatalogItem) (it : ItemEntry)
    (h : idStepTaken catalog it = false) :
    resolveEntry catalog it = resolveEntryName catalog it := by
  unfold resolveEntry
  rw [h]
  simp

/-- When exact and fuzzy matching both fail and the raw name is not a
catalog id, name resolution raises the bare unknown-item detail. -/
theorem resolveEntryName_err (catalog : List CatalogItem) (it : ItemEntry)
    (hexact : exactNameLookup catalog (strLower (entryName it)) = none)
    (hfuzz : (fuzzyBest catalog (entryName it)).2 < 2)
    (hraw : findItem catalog (entryName it) = none) :
    resolveEntryName catalog it =
      .error (.unknownItem ("Unknown item in request: " ++ reprEntry it)) := by
  have hfall : resolveFallback catalog it (entryName it) =
      .error (.unknownItem ("Unknown item in request: " ++ reprEntry it)) := by
    unfold resolveFallback
    rw [if_neg (by simp [hraw])]
  by_cases hnm : entryName it ≠ ""
  · simp only [resolveEntryName, if_pos hnm, hexact]
    rcases hfb : fuzzyBest catalog (entryName it) with ⟨bid?, s⟩
    have hs : s < 2 := by rw [hfb] at hfuzz; exact hfuzz
    rcases bid? with _ | bid
    · exact hfall
    · simpa [show ¬ 2 ≤ s from by omega] using hfall
  · simp only [resolveEntryName, if_neg hnm]
    exact hfall

/-- C4: when an entry has no usable direct id and no case-insensitive
exact name match, the resolver scores every catalog entry by the size of
the canonical token-set intersection, accepts the maximal-scoring entry
iff its score is at least 2 (ties falling to the first-seen catalog
entry), and in particular `white resin chairs` resolves to `Resin
Folding Chair (White)` while `chairs` alone fails. -/
theorem fuzzy_resolution (catalog : List CatalogItem) (it : ItemEntry)
    (hid : idStepTaken catalog it = false)
    (hexact : exactNameLookup catalog (strLower (entryName it)) = none) :
    (∀ bid s, fuzzyBest catalog (entryName it) = (some bid, s) → 2 ≤ s →
      entryName it ≠ "" →
      resolveEntry catalog it = .ok (bid, entryQty it)) ∧
    (∀ c ∈ catalog, interScore (entryName it) c.name ≤ (fuzzyBest catalog (entryName it)).2) ∧
    (∀ bid s, fuzzyBest catalog (entryName it) = (some bid, s) →
      ∃ pre c post, catalog = pre ++ c :: post ∧ c.id = bid ∧
        interScore (entryName it) c.name = s ∧
        ∀ p ∈ pre, interScore (entryName it) p.name < s) ∧
    ((fuzzyBest catalog (entryName it)).2 < 2 → findItem catalog (entryName it) = none →
      resolveEntry catalog it =
        .error (.unknownItem ("Unknown item in request: " ++ reprEntry it))) := by
  refine ⟨?_, ?_, ?_, ?_⟩
  · intro bid s hfb h2 hnm
    rw [resolveEntry_of_id_fails catalog it hid]
    simp only [resolveEntryName, if_pos hnm, hexact, hfb]
    rw [if_pos h2]
  · intro c hc
    exact fuzzyFold_max (entryName it) catalog (none, 0) c hc
  · intro bid s hfb
    exact fuzzyBest_first_seen catalog (entryName it) bid s hfb
  · intro hfuzz hraw
    rw [resolveEntry_of_id_fails catalog it hid]
    exact resolveEntryName_err catalog it hexact hfuzz hraw

/-- Witness for `fuzzy_resolution`: the spec's two concrete examples
against the example catalog. -/
theorem fuzzy_resolution_witness :
    resolveEntry egCatalog ⟨none, some "white resin chairs", none, some 50, none⟩ =
      .ok ("chair-id", 50) ∧
    resolveEntry egCatalog ⟨none, some "chairs", none, some 50, none⟩ =
      .error (.unknownItem "Unknown item in request: [id=None, name=chairs, item=None]") := by
  constructor
  · exact ((fuzzy_resolution egCatalog ⟨none, some "white resin chairs", none, some 50, none⟩
      (by decide) (by decide)).1 "chair-id" 3 (by decide) (by decide) (by decide)).trans (by decide)
  · exact ((fuzzy_resolution egCatalog ⟨none, some "chairs", none, some 50, none⟩
      (by decide) (by decide)).2.2.2 (by decide) (by decide)).trans (by decide)

/-- C5 (amended): an entry matching no resolution step makes the
dialog-path normalizer fail with `UnknownItem` whose detail carries only
the raw entry — no candidate suggestions — while the utils-module
variant silently drops the entry instead of failing. -/
theorem unknown_item_failure (catalog : List CatalogItem) :
    (∀ it : ItemEntry, idStepTaken catalog it = false →
      exactNameLookup catalog (strLower (entryName it)) = none →
      (fuzzyBest catalog (entryName it)).2 < 2 →
      findItem catalog (entryName it) = none →
      resolveEntry catalog it =
        .error (.unknownItem ("Unknown item in request: " ++ reprEntry it))) ∧
    (∀ it : ItemEntry,
      exactNameLookup catalog (strLower (strTrim (it.name.getD ""))) = none →
      (fuzzyBest catalog (strLower (strTrim (it.name.getD "")))).2 < 2 →
      utilsResolveEntry catalog it = none) := by
  constructor
  · intro it hid hexact hfuzz hraw
    rw [resolveEntry_of_id_fails catalog it hid]
    exact resolveEntryName_err catalog it hexact hfuzz hraw
  · intro it hexact hfuzz
    simp only [utilsResolveEntry, hexact]
    rcases hfb : fuzzyBest catalog (strLower (strTrim (it.name.getD ""))) with ⟨bid?, s⟩
    have hs : s < 2 := by rw [hfb] at hfuzz; exact hfuzz
    rcases bid? with _ | bid
    · rfl
    · simp [show ¬ 2 ≤ s from by omega]

/-- Witness for `unknown_item_failure`: `resin thing` overlaps the chair
name in one token only, so both normalizers give it up. -/
theorem unknown_item_failure_witness :
    resolveEntry egCatalog ⟨none, some "resin thing", none, none, none⟩ =
      .error (.unknownItem "Unknown item in request: [id=None, name=resin thing, item=None]") ∧
    utilsResolveEntry egCatalog ⟨none, some "resin thing", none, some 2, none⟩ = none := by
  constructor
  · exact ((unknown_item_failure egCatalog).1 ⟨none, some "resin thing", none, none, none⟩
      (by decide) (by decide) (by decide) (by decide)).trans (by decide)
  · exact (unknown_item_failure egCatalog).2 ⟨none, some "resin thing", none, some 2, none⟩
      (by decide) (by decide)

/-- C5 counterexample: the failing entry `resin thing` has a
positive-overlap candidate (`Resin Folding Chair (White)`, one shared
token), yet the failure detail names neither that candidate's name nor
its id — no suggestions are surfaced — and the utils-module variant
does not fail at all but silently drops the entry. -/
theorem unknown_item_failure_counterexample :
    resolveEntry egCatalog ⟨none, some "resin thing", none, none, none⟩ =
      .error (.unknownItem "Unknown item in request: [id=None, name=resin thing, item=None]") ∧
    0 < interScore "resin thing" egResin.name ∧
    strContainsSub "Unknown item in request: [id=None, name=resin thing, item=None]"
      egResin.name = false ∧
    strContainsSub "Unknown item in request: [id=None, name=resin thing, item=None]"
      egResin.id = false ∧
    utilsNormalizeItems egCatalog { item := some "resin thing", qty := some 2 } = [] := by
  decide

/-- Every weekday index in the `_WEEKDAYS` table lies in `[0, 7)`. -/
theorem lookupWeekday_bounds {w : String} {t : Int}
    (h : lookupWeekday w = some t) : 0 ≤ t ∧ t < 7 := by
  unfold lookupWeekday at h
  rcases hf : weekdayTable.find? (fun p => p.1 == w) with _ | p
  · rw [hf] at h; cases h
  · rw [hf] at h
    have hp : p.2 = t := by
      simpa using h
    have hmem : p ∈ weekdayTable := List.mem_of_find?_eq_some hf
    rw [← hp]
    simp only [weekdayTable, List.mem_cons, List.mem_singleton] at hmem
    rcases hmem with rfl | rfl | rfl | rfl | rfl | rfl | rfl | h7
    · omega
    · omega
    · omega
    · omega
    · omega
    · omega
    · omega
    · cases h7

/-- The day computed by `_next_weekday_iso` is the next occurrence of the
target weekday strictly after today: it has the target weekday, lies 1–7
days ahead (a full 7 exactly when today already is that weekday), and no
strictly earlier future day has the target weekday. -/
theorem nextWeekday_props (todayDays : Nat) (t : Int)
    (h0 : 0 ≤ t) (h7 : t < 7) :
    dayWeekday (nextWeekdayDays todayDays t) = t ∧
    todayDays < nextWeekdayDays todayDays t ∧
    nextWeekdayDays todayDays t ≤ todayDays + 7 ∧
    (dayWeekday todayDays = t → nextWeekdayDays todayDays t = todayDays + 7) ∧
    ∀ j : Nat, todayDays < j → j < nextWeekdayDays todayDays t → dayWeekday j ≠ t := by
  refine ⟨?_, ?_, ?_, ?_, ?_⟩
  · simp only [nextWeekdayDays, dayWeekday]
    split <;> omega
  · simp only [nextWeekdayDays, dayWeekday]
    split <;> omega
  · simp only [nextWeekdayDays, dayWeekday]
    split <;> omega
  · simp only [nextWeekdayDays, dayWeekday]
    intro heq
    split <;> omega
  · intro j hj1 hj2 hcon
    simp only [nextWeekdayDays, dayWeekday] at hj2 hcon
    split at hj2 <;> omega

/-- C6 (amended): for every nonempty input, a lowercased-trimmed
`next <weekday>` form resolves to the ISO date of the next occurrence of
that weekday strictly after today — rolling a full 7 days when today
already is that weekday, never today — and every other input (ISO dates
included) comes back as the lowercased, trimmed string, not necessarily
the original one. -/
theorem normalize_date_behavior (todayDays : Nat) (ds : String) (hne : ds ≠ "") :
    (∀ t : Int, strStartsWith (strTrim (strLower ds)) "next " = true →
      lookupWeekday (strDrop (strTrim (strLower ds)) 5) = some t →
      normalizeDate todayDays (some ds) = some (isoOfDays (nextWeekdayDays todayDays t)) ∧
      dayWeekday (nextWeekdayDays todayDays t) = t ∧
      todayDays < nextWeekdayDays todayDays t ∧
      nextWeekdayDays todayDays t ≤ todayDays + 7 ∧
      (dayWeekday todayDays = t → nextWeekdayDays todayDays t = todayDays + 7) ∧
      ∀ j : Nat, todayDays < j → j < nextWeekdayDays todayDays t → dayWeekday j ≠ t) ∧
    ((strStartsWith (strTrim (strLower ds)) "next " = false ∨
        lookupWeekday (strDrop (strTrim (strLower ds)) 5) = none) →
      normalizeDate todayDays (some ds) = some (strTrim (strLower ds))) := by
  constructor
  · intro t hstart hlook
    obtain ⟨hb0, hb7⟩ := lookupWeekday_bounds hlook
    refine ⟨?_, nextWeekday_props todayDays t hb0 hb7⟩
    simp only [normalizeDate, if_neg hne, hstart, hlook]
    rfl
  · intro hcase
    rcases hcase with hstart | hlook
    · simp only [normalizeDate, if_neg hne, hstart]
      rfl
    · by_cases hstart : strStartsWith (strTrim (strLower ds)) "next " = true
      · simp only [normalizeDate, if_neg hne, hstart, hlook]
        rfl
      · simp only [normalizeDate, if_neg hne]
        rw [if_neg hstart]

/-- Witness for `normalize_date_behavior`: on day 0 (Thursday 1970-01-01)
`next friday` resolves to 1970-01-02; `next thursday` rolls a full week
to 1970-01-08; a plain ISO date passes through unchanged. -/
theorem normalize_date_behavior_witness :
    normalizeDate 0 (some "next friday") = some "1970-01-02" ∧
    normalizeDate 0 (some "next thursday") = some "1970-01-08" ∧
    normalizeDate 0 (some "2024-01-06") = some "2024-01-06" := by
  refine ⟨?_, ?_, ?_⟩
  · exact (((normalize_date_behavior 0 "next friday" (by decide)).1 4
      (by decide) (by decide)).1).trans (by decide)
  · exact (((normalize_date_behavior 0 "next thursday" (by decide)).1 3
      (by decide) (by decide)).1).trans (by decide)
  · exact ((normalize_date_behavior 0 "2024-01-06" (by decide)).2
      (Or.inl (by decide))).trans (by decide)

/-- C6 counterexample: `Tomorrow` neither starts with `next ` plus a
weekday nor parses as an ISO date, yet normalization returns the
lowercased `tomorrow` instead of the original string unmodified. -/
theorem normalize_date_counterexample :
    normalizeDate 20000 (some "Tomorrow") = some "tomorrow" ∧
    ("tomorrow" : String) ≠ "Tomorrow" := by
  decide

/-- C7 (amended): the completion hook fires on a turn exactly when the
session is already complete as the turn starts — so every later turn
handled on an already-complete session invokes it again — or the turn's
extracted value fills the last unfilled required slot. -/
theorem handleStep_hookFired (extract : String → String → Option String)
    (st : SessionState) (txt : String) :
    (handleStep extract st txt).hookFired =
      (match nextUnfilledSlot st with
       | none => true
       | some slot =>
         match extract slot txt with
         | some v =>
           if v = "" then false
           else (nextUnfilledSlot (setSlot st slot (some v))).isNone
         | none => false) := by
  unfold handleStep
  rcases nextUnfilledSlot st with _ | slot
  · rfl
  · dsimp only
    rcases extract slot txt with _ | v
    · rfl
    · dsimp only
      by_cases hv : v = ""
      · simp only [if_pos hv]
      · simp only [if_neg hv]
        rcases nextUnfilledSlot (setSlot st slot (some v)) with _ | nxt
        · rfl
        · rfl

/-- C7 (amended): the completion hook fires on a turn exactly when the
session is already complete as the turn starts — so every later turn
handled on an already-complete session invokes it again — or the turn's
extracted value fills the last unfilled required slot. -/
theorem handle_step_hook_iff (extract : String → String → Option String)
    (st : SessionState) (txt : String) :
    (handleStep extract st txt).hookFired = true ↔
      (nextUnfilledSlot st = none ∨
       ∃ slot v, nextUnfilledSlot st = some slot ∧ extract slot txt = some v ∧ v ≠ "" ∧
         nextUnfilledSlot (setSlot st slot (some v)) = none) := by
  rw [handleStep_hookFired]
  rcases hn : nextUnfilledSlot st with _ | slot
  · simp
  · rcases hx : extract slot txt with _ | v
    · simp [hx]
    · by_cases hv : v = ""
      · subst hv
        simp [hx]
      · simp only [hx, if_neg hv]
        rcases hn' : nextUnfilledSlot (setSlot st slot (some v)) with _ | nxt
        · constructor
          · intro _
            exact Or.inr ⟨slot, v, rfl, hx, hv, hn'⟩
          · intro _
            rfl
        · constructor
          · intro h
            simp at h
          · rintro (h | ⟨slot', v', hs, hv', _, hdone⟩)
            · cases h
            · obtain rfl : slot' = slot := (Option.some.inj hs).symm
              rw [hx] at hv'
              obtain rfl : v = v' := Option.some.inj hv'
              rw [hn'] at hdone
              cases hdone

/-- C7 counterexample: with three of four required slots filled, the
fourth turn completes the session and fires the hook — and a further
turn handled on the same already-complete session fires it a second
time, so the hook is not invoked exactly once per call. -/
theorem handle_step_hook_counterexample :
    (handleStep egExtract egSession3 "zip is 90210").hookFired = true ∧
    nextUnfilledSlot (handleStep egExtract egSession3 "zip is 90210").session = none ∧
    (handleStep egExtract
      (handleStep egExtract egSession3 "zip is 90210").session "hello").hookFired = true := by
  refine ⟨rfl, rfl, rfl⟩

/-- C8: when the check_availability directive succeeds and reports
available=true, the dialog immediately triggers a quote follow-up with
the same arguments; the primary response keeps the availability result
either way, and a failing follow-up is only omitted. -/
theorem dialog_auto_quote (e : Engine) (todayDays : Nat) (args : ToolArgs)
    (sh : List Shortage)
    (h : runTool e todayDays "check_availability" args = .ok (.availability true sh)) :
    (dialogToolPhase e todayDays (some "check_availability") args).1 =
      some (.ok (.availability true sh)) ∧
    (dialogToolPhase e todayDays (some "check_availability") args).2 =
      (match runTool e todayDays "quote" args with
       | .ok r => some r
       | .error _ => none) := by
  have hcond : ¬(("check_availability" : String) = "" ∨
      strLower "check_availability" = "null") := by decide
  unfold dialogToolPhase
  simp only [if_neg hcond, h, availTrue, and_true, if_pos rfl]
  exact ⟨trivial, rfl⟩

/-- Witness for `dialog_auto_quote`: the availability check succeeds with
no shortages, but the arguments carry no zip, so the follow-up quote
fails with a missing-argument error and is omitted while the primary
response still carries the availability result. -/
theorem dialog_auto_quote_witness :
    (dialogToolPhase egEngine 0 (some "check_availability") egArgsAvail).1 =
      some (.ok (.availability true [])) ∧
    runTool egEngine 0 "quote" egArgsAvail =
      .error (.httpErr "quote requires date and a ZIP") ∧
    (dialogToolPhase egEngine 0 (some "check_availability") egArgsAvail).2 = none := by
  have h := dialog_auto_quote egEngine 0 egArgsAvail [] (by decide)
  exact ⟨h.1, by decide, h.2.trans (by decide)⟩

/-- C9: `set_slot` with `None` or a blank string leaves the session
unchanged, blank-free slot maps stay blank-free under any `set_slot`,
and `all_required_filled` reports false while any required slot is
absent or blank. -/
theorem set_slot_blank_values (st : SessionState) (key : String) :
    (setSlot st key none = st) ∧
    (∀ v, strTrim v = "" → setSlot st key (some v) = st) ∧
    (∀ value, (∀ k w, st.slots k = some w → strTrim w ≠ "") →
      ∀ k w, (setSlot st key value).slots k = some w → strTrim w ≠ "") ∧
    (∀ (required : List String) (k : String), k ∈ required →
      (st.slots k = none ∨ ∃ w, st.slots k = some w ∧ strTrim w = "") →
      allRequiredFilled st required = false) := by
  refine ⟨rfl, ?_, ?_, ?_⟩
  · intro v hv
    simp [setSlot, hv]
  · intro value hinv k w hset
    rcases value with _ | v
    · exact hinv k w hset
    · by_cases hb : strTrim v = ""
      · rw [setSlot, if_pos hb] at hset
        exact hinv k w hset
      · rw [setSlot, if_neg hb] at hset
        dsimp only at hset
        by_cases hk : k = key
        · rw [if_pos hk] at hset
          rw [← Option.some.inj hset]
          exact hb
        · rw [if_neg hk] at hset
          exact hinv k w hset
  · intro required k hk hbad
    rw [← Bool.not_eq_true]
    intro hall
    rw [allRequiredFilled, List.all_eq_true] at hall
    have hp := hall k hk
    rcases hbad with hnone | ⟨w, hw, hblank⟩
    · rw [hnone] at hp
      cases hp
    · rw [hw] at hp
      simp only [Bool.not_eq_true', beq_eq_false_iff_ne] at hp
      exact hp hblank

/-- Witness for `set_slot_blank_values`: a whitespace-only zip assignment
is dropped and the session still reports required slots unfilled. -/
theorem set_slot_blank_values_witness :
    setSlot egSession3 "zip" (some "   ") = egSession3 ∧
    allRequiredFilled egSession3 requiredSlots = false := by
  have h := set_slot_blank_values egSession3 "zip"
  exact ⟨h.2.1 "   " (by decide),
    h.2.2.2 requiredSlots "zip" (by decide) (Or.inl (by decide))⟩

end Chatty
